import Mathlib

/-!
# Scan dispatch, aggregation and report rendering of the vulnerability scanner

A shallow embedding of `pkg/report/writer.go`, `pkg/scanner/scan.go` and
`pkg/scanner/ospkg/scan.go`.

* Go strings are Lean strings; `len` is the UTF-8 byte length.
* Go `error` values are their messages (`Option String`, `none` for `nil`).
* A Go `map[string]int` read with the zero default is a function `String → Nat`;
  a Go `map[string][]T` is a key-unique association list, `none` standing for
  the `nil` map.
* The collaborators living outside the repository (image analysis, detectors,
  library scanning, table rendering, JSON encoding) are fields of an
  environment record, and every call to one of them is logged in a trace.
-/

namespace Trivy

/-! ## Go standard library helpers used by the source -/

namespace strings

/-- Cut a character list at every occurrence of `sep`; the pieces between two
adjacent separators are empty, and the empty input yields one empty piece. -/
def splitChars (sep : Char) : List Char → List (List Char)
  | [] => [[]]
  | c :: cs =>
    if c = sep then [] :: splitChars sep cs
    else (c :: (splitChars sep cs).headD []) :: (splitChars sep cs).tail

/-- Go `strings.Split(s, sep)` for a separator of one character. -/
def Split (s : String) (sep : Char) : List String :=
  (splitChars sep s.data).map String.mk

/-- Go `strings.Join(elems, sep)`. -/
def Join : List String → String → String
  | [], _ => ""
  | [a], _ => a
  | a :: b :: rest, sep => a ++ sep ++ Join (b :: rest) sep

/-- Go `strings.Repeat(s, count)`. -/
def Repeat (s : String) : Nat → String
  | 0 => ""
  | n + 1 => s ++ Repeat s n

/-- Whitespace-separated words of a string (Go `strings.Fields`): maximal runs
of non-whitespace characters. Used only to state what the specification calls
"whitespace-separated words". -/
def fieldsChars : List Char → List (List Char)
  | [] => []
  | c :: cs =>
    if c.isWhitespace then fieldsChars cs
    else
      match cs with
      | [] => [[c]]
      | d :: _ =>
        if d.isWhitespace then [c] :: fieldsChars cs
        else (c :: (fieldsChars cs).headD []) :: (fieldsChars cs).tail

/-- Go `strings.Fields(s)`. -/
def Fields (s : String) : List String :=
  (fieldsChars s.data).map String.mk

end strings

/-- Go `len(s)` of a string: the number of bytes of its UTF-8 encoding. -/
def len (s : String) : Nat := s.utf8ByteSize

/-- Go `%d` formatting of a non-negative `int`. -/
def fmtInt (n : Nat) : String := toString n

/-! ## Package `vulnerability` (declarations used by the source) -/

namespace vulnerability

/-- The fields of `vulnerability.DetectedVulnerability` that the source reads. -/
structure DetectedVulnerability where
  VulnerabilityID : String
  PkgName : String
  InstalledVersion : String
  FixedVersion : String
  Title : String
  Description : String
  Severity : String
deriving DecidableEq, Repr

/-- Modelled from the spec: the table `vulnerability.SeverityNames` is declared
outside the given sources; the specification fixes the canonical names and
their display order CRITICAL, HIGH, MEDIUM, LOW, UNKNOWN. -/
def SeverityNames : List String := ["CRITICAL", "HIGH", "MEDIUM", "LOW", "UNKNOWN"]

/-- Modelled from the spec: index of CRITICAL in `SeverityNames`. -/
def SeverityCritical : Nat := 0
/-- Modelled from the spec: index of HIGH in `SeverityNames`. -/
def SeverityHigh : Nat := 1
/-- Modelled from the spec: index of MEDIUM in `SeverityNames`. -/
def SeverityMedium : Nat := 2
/-- Modelled from the spec: index of LOW in `SeverityNames`. -/
def SeverityLow : Nat := 3
/-- Modelled from the spec: index of UNKNOWN in `SeverityNames`. -/
def SeverityUnknown : Nat := 4

/-- Slice indexing `SeverityNames[i]` (every index used by the source is in range). -/
def severityName (i : Nat) : String := SeverityNames.getD i ""

end vulnerability

open vulnerability (DetectedVulnerability)

/-! ## Package `report` -/

namespace report

/-- `type Result struct`. -/
structure Result where
  FileName : String
  Vulnerabilities : List DetectedVulnerability
deriving DecidableEq, Repr

/-- `type Results []Result`. -/
abbrev Results := List Result

/-- The `io.Writer` values the source distinguishes: the process standard
output `os.Stdout`, or any other sink (a file, a pipe, a buffer). -/
inductive IoWriter where
  | osStdout
  | other
deriving DecidableEq, Repr

/-- What has been written so far to the process standard output and to the
other sink. -/
structure World where
  stdout : String
  sink : String
deriving DecidableEq, Repr

/-- Append text to the stream behind an `io.Writer`. -/
def World.emit (w : World) (out : IoWriter) (text : String) : World :=
  match out with
  | IoWriter.osStdout => { w with stdout := w.stdout ++ text }
  | IoWriter.other => { w with sink := w.sink ++ text }

/-- The state of a `tablewriter.Table`: the sink it was created on, its header,
the appended rows and the two rendering flags. -/
structure Table where
  out : IoWriter
  header : List String
  rows : List (List String)
  autoMergeCells : Bool
  rowLine : Bool
deriving DecidableEq, Repr

/-- `tablewriter.NewWriter(w)`. -/
def Table.NewWriter (out : IoWriter) : Table :=
  { out := out, header := [], rows := [], autoMergeCells := false, rowLine := false }

/-- `table.Append(row)`. -/
def Table.Append (t : Table) (row : List String) : Table :=
  { t with rows := t.rows ++ [row] }

/-- `type JsonSummary struct`. -/
structure JsonSummary where
  OsFamily : String
  OsVersion : String
  Critical : Nat
  High : Nat
  Medium : Nat
  Low : Nat
  Unknown : Nat
deriving DecidableEq, Repr

/-- `type JsonFormat struct`. -/
structure JsonFormat where
  Summary : JsonSummary
  Detail : Results
deriving DecidableEq, Repr

/-- The collaborators of the report package that live outside the repository. -/
structure Env where
  /-- `vulnerability.ColorizeSeverity`. -/
  ColorizeSeverity : String → String
  /-- The text `table.Render()` produces for a table. -/
  renderTable : Table → String
  /-- `json.MarshalIndent(v, "", "  ")` applied to the report document. -/
  MarshalIndent : JsonFormat → String → String → Except String String
  /-- The error, if any, with which a write to the sink fails. -/
  writeError : IoWriter → Option String

/-- `type TableWriter struct`. -/
structure TableWriter where
  Output : IoWriter
deriving DecidableEq, Repr

/-- A Go `map[string]int` read with the zero default. -/
abbrev CountMap := String → Nat

/-- `m[k]++`. -/
def CountMap.incr (m : CountMap) (k : String) : CountMap :=
  fun k' => if k' = k then m k' + 1 else m k'

/-- The display title of a finding (writer.go, lines 46-49): the title, or the
description when the title is empty. -/
def displayTitle (v : DetectedVulnerability) : String :=
  if v.Title = "" then v.Description else v.Title

/-- The title column of a finding (writer.go, lines 46-53). -/
def titleColumn (v : DetectedVulnerability) : String :=
  let title := displayTitle v
  let splittedTitle := strings.Split title (Char.ofNat 32)
  if splittedTitle.length ≥ 12 then
    strings.Join (splittedTitle.take 12) " " ++ "..."
  else title

/-- One iteration of the loop over the findings (writer.go, lines 43-60). -/
def TableWriter.step (env : Env) (tw : TableWriter)
    (st : CountMap × Table) (v : DetectedVulnerability) : CountMap × Table :=
  let severityCount := st.1.incr v.Severity
  let title := titleColumn v
  if tw.Output = IoWriter.osStdout then
    (severityCount, st.2.Append [v.PkgName, v.VulnerabilityID, env.ColorizeSeverity v.Severity,
      v.InstalledVersion, v.FixedVersion, title])
  else
    (severityCount, st.2.Append [v.PkgName, v.VulnerabilityID, v.Severity,
      v.InstalledVersion, v.FixedVersion, title])

/-- The table header set in writer.go, line 40. -/
def tableHeader : List String :=
  ["Library", "Vulnerability ID", "Severity", "Installed Version", "Fixed Version", "Title"]

/-- The state after the loop over the findings (writer.go, lines 38-60). -/
def TableWriter.loop (env : Env) (tw : TableWriter) (result : Result) : CountMap × Table :=
  result.Vulnerabilities.foldl (TableWriter.step env tw)
    (fun _ => 0, { Table.NewWriter tw.Output with header := tableHeader })

/-- The count the total line shows for each name of `SeverityNames`
(writer.go, lines 62-66), in the order of the table. -/
def TableWriter.shownCounts (env : Env) (tw : TableWriter) (result : Result) : List Nat :=
  vulnerability.SeverityNames.map (fun severity => (TableWriter.loop env tw result).1 severity)

/-- The underline emitted below the target name (writer.go, line 69). -/
def underline (result : Result) : String :=
  strings.Repeat "=" (len result.FileName)

/-- The three `fmt.Print*` lines of writer.go, lines 68-70. -/
def TableWriter.headerText (env : Env) (tw : TableWriter) (result : Result) : String :=
  let severityCount := (TableWriter.loop env tw result).1
  let results := vulnerability.SeverityNames.map
    (fun severity => severity ++ ": " ++ fmtInt (severityCount severity))
  ("\n" ++ result.FileName ++ "\n")
    ++ (underline result ++ "\n")
    ++ ("Total: " ++ fmtInt result.Vulnerabilities.length ++ " ("
          ++ strings.Join results ", " ++ ")\n\n")

/-- `func (tw TableWriter) write(result Result)`: the header, underline and
total line go through `fmt.Printf` and `fmt.Println`, that is to the process
standard output; the table is rendered on `tw.Output`. -/
def TableWriter.write (env : Env) (tw : TableWriter) (result : Result) (w : World) : World :=
  let table := (TableWriter.loop env tw result).2
  let w := w.emit IoWriter.osStdout (TableWriter.headerText env tw result)
  if result.Vulnerabilities.length = 0 then w
  else
    let table := { table with autoMergeCells := true, rowLine := true }
    w.emit table.out (env.renderTable table)

/-- `func (tw TableWriter) Write(osFamily, osVersion string, results Results) error`. -/
def TableWriter.Write (env : Env) (tw : TableWriter) (_osFamily _osVersion : String)
    (results : Results) (w : World) : Option String × World :=
  (none, results.foldl (fun w result => TableWriter.write env tw result w) w)

/-- `type JsonWriter struct`. -/
structure JsonWriter where
  Output : IoWriter
deriving DecidableEq, Repr

/-- The `switch v.Severity` of writer.go, lines 107-118; the cases are tried in
order. -/
def JsonWriter.count (summary : JsonSummary) (v : DetectedVulnerability) : JsonSummary :=
  if v.Severity = vulnerability.severityName vulnerability.SeverityCritical then
    { summary with Critical := summary.Critical + 1 }
  else if v.Severity = vulnerability.severityName vulnerability.SeverityHigh then
    { summary with High := summary.High + 1 }
  else if v.Severity = vulnerability.severityName vulnerability.SeverityMedium then
    { summary with Medium := summary.Medium + 1 }
  else if v.Severity = vulnerability.severityName vulnerability.SeverityLow then
    { summary with Low := summary.Low + 1 }
  else
    { summary with Unknown := summary.Unknown + 1 }

/-- The summary after the two nested loops of writer.go, lines 101-120. -/
def JsonWriter.summary (osFamily osVersion : String) (results : Results) : JsonSummary :=
  results.foldl
    (fun summary result => result.Vulnerabilities.foldl JsonWriter.count summary)
    { OsFamily := osFamily, OsVersion := osVersion,
      Critical := 0, High := 0, Medium := 0, Low := 0, Unknown := 0 }

/-- The document handed to the encoder (writer.go, lines 121-124). -/
def JsonWriter.outputStruct (osFamily osVersion : String) (results : Results) : JsonFormat :=
  { Summary := JsonWriter.summary osFamily osVersion results, Detail := results }

/-- `func (jw JsonWriter) Write(osFamily, osVersion string, results Results) error`. -/
def JsonWriter.Write (env : Env) (jw : JsonWriter) (osFamily osVersion : String)
    (results : Results) (w : World) : Option String × World :=
  let outputStruct := JsonWriter.outputStruct osFamily osVersion results
  match env.MarshalIndent outputStruct "" "  " with
  | Except.error err => (some ("failed to marshal json: " ++ err), w)
  | Except.ok output =>
    match env.writeError jw.Output with
    | some err => (some ("failed to write json: " ++ err), w)
    | none => (none, w.emit jw.Output output)

end report

/-! ## Collaborators of the scanner packages -/

/-- A Go `map[string]T` as an association list whose keys are pairwise
distinct; the order of the list carries no meaning. -/
abbrev GoMap (α : Type) := List (String × α)

/-- `m[k] = v`: the binding of `k`, if any, is replaced. -/
def GoMap.set {α : Type} (m : GoMap α) (k : String) (v : α) : GoMap α :=
  (k, v) :: m.filter (fun e => decide (e.1 ≠ k))

/-- The value bound to `k`, if any. -/
def GoMap.get? {α : Type} (m : GoMap α) (k : String) : Option α :=
  (m.find? (fun e => decide (e.1 = k))).map Prod.snd

/-- The keys of a map. -/
def GoMap.keys {α : Type} (m : GoMap α) : List String := m.map Prod.fst

/-- `for k, v := range src { dst[k] = v }`. -/
def GoMap.setAll {α : Type} (dst src : GoMap α) : GoMap α :=
  src.foldl (fun m e => m.set e.1 e.2) dst

namespace extractor

/-- `extractor.FileMap`, a `map[string][]byte` from path to content. -/
abbrev FileMap := List (String × List Nat)

end extractor

namespace analyzer

/-- `analyzer.OS`. -/
structure OS where
  Name : String
  Family : String
deriving DecidableEq, Repr

/-- `analyzer.Package`. -/
structure Package where
  Name : String
  Version : String
deriving DecidableEq, Repr

end analyzer

namespace fos

/-- Modelled from the spec: the family tags of package `fanal/analyzer/os` are
declared outside the given sources; these are the tags of the supported
variants Alpine, Debian, Ubuntu and RedHat/CentOS. -/
def Alpine : String := "alpine"
/-- Modelled from the spec: family tag of Debian. -/
def Debian : String := "debian"
/-- Modelled from the spec: family tag of Ubuntu. -/
def Ubuntu : String := "ubuntu"
/-- Modelled from the spec: family tag of RedHat. -/
def RedHat : String := "redhat"
/-- Modelled from the spec: family tag of CentOS. -/
def CentOS : String := "centos"

end fos

namespace types

/-- `types.ScanOptions` (the field the source reads). -/
structure ScanOptions where
  VulnType : List String
deriving DecidableEq, Repr

/-- `types.DockerOption`, passed through unread. -/
structure DockerOption where
  raw : String
deriving DecidableEq, Repr

end types

namespace utils

/-- Modelled from the spec: `utils.StringInSlice(a, list)` is declared outside
the given sources; it tells whether the value occurs in the list. -/
def StringInSlice (a : String) (list : List String) : Bool := decide (a ∈ list)

end utils

/-- An `*os.File`. -/
structure File where
  name : String
deriving DecidableEq, Repr

/-- The four detector variants `ospkg.Scan` selects from. -/
inductive Detector where
  | alpine
  | debian
  | ubuntu
  | redhat
deriving DecidableEq, Repr

/-- A call to a collaborator outside the repository, or a process-level effect. -/
inductive Call where
  | GetDockerOption
  | Analyze (imageName : String)
  | IsTerminal
  | Usage
  | Exit (code : Nat)
  | Open (path : String)
  | AnalyzeFromFile
  | GetOS
  | GetPackages
  | Detect (d : Detector)
  | LibraryScan
  | LibraryScanFile
deriving DecidableEq, Repr

/-- The collaborators of the scanner packages. -/
structure Env where
  /-- `types.GetDockerOption()`. -/
  GetDockerOption : Except String types.DockerOption
  /-- `analyzer.Analyze(ctx, imageName, dockerOption)`. -/
  Analyze : String → types.DockerOption → Except String extractor.FileMap
  /-- `terminal.IsTerminal(0)`. -/
  IsTerminal : Bool
  /-- `os.Stdin`. -/
  Stdin : File
  /-- `os.Open(path)`. -/
  Open : String → Except String File
  /-- `analyzer.AnalyzeFromFile(ctx, rc)`. -/
  AnalyzeFromFile : File → Except String extractor.FileMap
  /-- `analyzer.GetOS(files)`. -/
  GetOS : extractor.FileMap → Except String analyzer.OS
  /-- `analyzer.GetPackages(files)`. -/
  GetPackages : extractor.FileMap → Except String (List analyzer.Package)
  /-- `Detect(osName, pkgs)` of each detector variant. -/
  Detect : Detector → String → List analyzer.Package →
    Except String (List DetectedVulnerability)
  /-- `library.Scan(files, scanOptions)`. -/
  LibraryScan : extractor.FileMap → types.ScanOptions →
    Except String (GoMap (List DetectedVulnerability))
  /-- `library.ScanFile(f)`. -/
  LibraryScanFile : File → Except String (List DetectedVulnerability)

/-- How a function call ends: it returns, or the process terminates inside it. -/
inductive Outcome (α : Type) where
  | returned (a : α)
  | exited (code : Nat)
deriving DecidableEq, Repr

/-! ## Package `ospkg` -/

namespace ospkg

/-- The four values `ospkg.Scan` returns; `vulns = []` is the `nil` slice. -/
structure ScanReturn where
  osFamily : String
  osVersion : String
  vulns : List DetectedVulnerability
  err : Option String
deriving DecidableEq, Repr

/-- The `switch os.Family` of ospkg/scan.go, lines 32-44: the selected
detector, or `none` for the `default` case. -/
def selectScanner (family : String) : Option Detector :=
  if family = fos.Alpine then some Detector.alpine
  else if family = fos.Debian then some Detector.debian
  else if family = fos.Ubuntu then some Detector.ubuntu
  else if family = fos.RedHat ∨ family = fos.CentOS then some Detector.redhat
  else none

/-- `func Scan(files extractor.FileMap) (string, string, []types.Vulnerability, error)`,
with the trace of the collaborator calls it made. -/
def Scan (env : Env) (files : extractor.FileMap) : ScanReturn × List Call :=
  match env.GetOS files with
  | Except.error err =>
    (⟨"", "", [], some ("failed to analyze OS: " ++ err)⟩, [Call.GetOS])
  | Except.ok os =>
    match selectScanner os.Family with
    | none => (⟨"", "", [], some "unsupported os"⟩, [Call.GetOS])
    | some s =>
      match env.GetPackages files with
      | Except.error err =>
        (⟨"", "", [], some ("failed to analyze OS packages: " ++ err)⟩,
          [Call.GetOS, Call.GetPackages])
      | Except.ok pkgs =>
        match env.Detect s os.Name pkgs with
        | Except.error err =>
          (⟨"", "", [], some ("failed to detect vulnerabilities: " ++ err)⟩,
            [Call.GetOS, Call.GetPackages, Call.Detect s])
        | Except.ok vulns =>
          (⟨os.Family, os.Name, vulns, none⟩,
            [Call.GetOS, Call.GetPackages, Call.Detect s])

end ospkg

/-! ## Package `scanner` -/

namespace scanner

/-- The four values `ScanImage` returns; `results = none` is the `nil` map. -/
structure ScanImageReturn where
  osFamily : String
  osVersion : String
  results : Option (GoMap (List DetectedVulnerability))
  err : Option String
deriving DecidableEq, Repr

/-- `func openStream(path string) (*os.File, error)`. -/
def openStream (env : Env) (path : String) : Outcome (Except String File) × List Call :=
  if path = "-" then
    if env.IsTerminal then
      (Outcome.exited 64, [Call.IsTerminal, Call.Usage, Call.Exit 64])
    else
      (Outcome.returned (Except.ok env.Stdin), [Call.IsTerminal])
  else
    (Outcome.returned (env.Open path), [Call.Open path])

/-- The first part of `ScanImage` (scan.go, lines 24-49): the target name and
the extracted files, or the values of an early return. -/
def extract (env : Env) (imageName filePath : String) :
    Outcome (Except ScanImageReturn (String × extractor.FileMap)) × List Call :=
  if imageName ≠ "" then
    match env.GetDockerOption with
    | Except.error err =>
      (Outcome.returned (Except.error
        ⟨"", "", none, some ("failed to get docker option: " ++ err)⟩),
        [Call.GetDockerOption])
    | Except.ok dockerOption =>
      match env.Analyze imageName dockerOption with
      | Except.error err =>
        (Outcome.returned (Except.error
          ⟨"", "", none, some ("failed to analyze image: " ++ err)⟩),
          [Call.GetDockerOption, Call.Analyze imageName])
      | Except.ok files =>
        (Outcome.returned (Except.ok (imageName, files)),
          [Call.GetDockerOption, Call.Analyze imageName])
  else if filePath ≠ "" then
    match openStream env filePath with
    | (Outcome.exited code, tr) => (Outcome.exited code, tr)
    | (Outcome.returned (Except.error err), tr) =>
      (Outcome.returned (Except.error
        ⟨"", "", none, some ("failed to open stream: " ++ err)⟩), tr)
    | (Outcome.returned (Except.ok rc), tr) =>
      match env.AnalyzeFromFile rc with
      | Except.error err =>
        (Outcome.returned (Except.error ⟨"", "", none, some err⟩),
          tr ++ [Call.AnalyzeFromFile])
      | Except.ok files =>
        (Outcome.returned (Except.ok (filePath, files)), tr ++ [Call.AnalyzeFromFile])
  else
    (Outcome.returned (Except.error
      ⟨"", "", none, some "image name or image file must be specified"⟩), [])

/-- The name of the OS scan target (scan.go, line 60). -/
def imageDetail (target osFamily osVersion : String) : String :=
  target ++ " (" ++ osFamily ++ " " ++ osVersion ++ ")"

/-- The OS part of `ScanImage` (scan.go, lines 51-63): the values of the early
return, or the OS family, the OS version and the result map so far. -/
def scanOS (env : Env) (target : String) (files : extractor.FileMap)
    (scanOptions : types.ScanOptions) :
    Except ScanImageReturn (String × String × GoMap (List DetectedVulnerability)) × List Call :=
  if utils.StringInSlice "os" scanOptions.VulnType then
    match ospkg.Scan env files with
    | (⟨_, _, _, some err⟩, tr) =>
      (Except.error ⟨"", "", none, some ("failed to scan image: " ++ err)⟩, tr)
    | (⟨osFamily, osVersion, osVulns, none⟩, tr) =>
      if osFamily ≠ "" then
        (Except.ok (osFamily, osVersion,
          GoMap.set [] (imageDetail target osFamily osVersion) osVulns), tr)
      else
        (Except.ok (osFamily, osVersion, []), tr)
  else
    (Except.ok ("", "", []), [])

/-- The second part of `ScanImage` (scan.go, lines 51-75). -/
def scanFiles (env : Env) (target : String) (files : extractor.FileMap)
    (scanOptions : types.ScanOptions) : ScanImageReturn × List Call :=
  match scanOS env target files scanOptions with
  | (Except.error ret, tr) => (ret, tr)
  | (Except.ok (osFamily, osVersion, results), tr) =>
    if utils.StringInSlice "library" scanOptions.VulnType then
      match env.LibraryScan files scanOptions with
      | Except.error err =>
        (⟨"", "", none, some ("failed to scan libraries: " ++ err)⟩, tr ++ [Call.LibraryScan])
      | Except.ok libVulns =>
        (⟨osFamily, osVersion, some (GoMap.setAll results libVulns), none⟩,
          tr ++ [Call.LibraryScan])
    else
      (⟨osFamily, osVersion, some results, none⟩, tr)

/-- `func ScanImage(imageName, filePath string, scanOptions types.ScanOptions)`,
with the trace of the collaborator calls it made. -/
def ScanImage (env : Env) (imageName filePath : String) (scanOptions : types.ScanOptions) :
    Outcome ScanImageReturn × List Call :=
  match extract env imageName filePath with
  | (Outcome.exited code, tr) => (Outcome.exited code, tr)
  | (Outcome.returned (Except.error ret), tr) => (Outcome.returned ret, tr)
  | (Outcome.returned (Except.ok (target, files)), tr) =>
    let r := scanFiles env target files scanOptions
    (Outcome.returned r.1, tr ++ r.2)

/-- `func ScanFile(f *os.File) (map[string][]vulnerability.DetectedVulnerability, error)`. -/
def ScanFile (env : Env) (f : File) :
    (Option (GoMap (List DetectedVulnerability)) × Option String) × List Call :=
  match env.LibraryScanFile f with
  | Except.error err =>
    ((none, some ("failed to scan libraries in file: " ++ err)), [Call.LibraryScanFile])
  | Except.ok vulns => ((some (GoMap.set [] f.name vulns), none), [Call.LibraryScanFile])

end scanner

/-! ## Vocabulary of the statements -/

namespace report

/-- All findings of a result set, target after target. -/
def findings : Results → List DetectedVulnerability
  | [] => []
  | r :: rs => r.Vulnerabilities ++ findings rs

/-- Number of findings whose raw severity is exactly `name`. -/
def countSeverity (name : String) (vs : List DetectedVulnerability) : Nat :=
  vs.countP (fun v => decide (v.Severity = name))

/-- Number of findings whose raw severity is none of CRITICAL, HIGH, MEDIUM, LOW. -/
def countOther (vs : List DetectedVulnerability) : Nat :=
  vs.countP (fun v => decide (v.Severity ≠ "CRITICAL" ∧ v.Severity ≠ "HIGH"
    ∧ v.Severity ≠ "MEDIUM" ∧ v.Severity ≠ "LOW"))

/-- The title column as the specification words it: the display title is cut
into whitespace-separated words; with 12 or more words the column is the first
12 words joined by single spaces followed by the marker, otherwise the display
title unchanged. -/
def specTitleColumn (v : DetectedVulnerability) : String :=
  let title := displayTitle v
  let words := strings.Fields title
  if words.length ≥ 12 then strings.Join (words.take 12) " " ++ "..." else title

end report

namespace scanner

/-- A finding used in the examples. -/
def sampleVuln (id : String) : DetectedVulnerability :=
  ⟨id, "musl", "1.1.20", "1.1.22", "title", "", "HIGH"⟩

/-- An environment in which every extraction step succeeds with an empty file
map, OS identification answers `os`, package enumeration and every detector
succeed, and the library scan answers `lib`. -/
def sampleEnv (os : Except String analyzer.OS)
    (lib : GoMap (List DetectedVulnerability)) : Env :=
  { GetDockerOption := Except.ok ⟨""⟩
    Analyze := fun _ _ => Except.ok []
    IsTerminal := false
    Stdin := ⟨"/dev/stdin"⟩
    Open := fun path => Except.ok ⟨path⟩
    AnalyzeFromFile := fun _ => Except.ok []
    GetOS := fun _ => os
    GetPackages := fun _ => Except.ok [⟨"musl", "1.1.20"⟩]
    Detect := fun _ _ _ => Except.ok [sampleVuln "CVE-2019-14697"]
    LibraryScan := fun _ _ => Except.ok lib
    LibraryScanFile := fun _ => Except.ok [] }

end scanner

/-! ## The structured writer: summary counts -/

namespace report

theorem countSeverity_append (name : String) (xs ys : List DetectedVulnerability) :
    countSeverity name (xs ++ ys) = countSeverity name xs + countSeverity name ys := by
  simp [countSeverity, List.countP_append]

theorem countOther_append (xs ys : List DetectedVulnerability) :
    countOther (xs ++ ys) = countOther xs + countOther ys := by
  simp [countOther, List.countP_append]

/-- Effect of one pass through the `switch` on every field of the summary. -/
theorem count_fields (s : JsonSummary) (v : DetectedVulnerability) :
    (JsonWriter.count s v).Critical = s.Critical + countSeverity "CRITICAL" [v]
    ∧ (JsonWriter.count s v).High = s.High + countSeverity "HIGH" [v]
    ∧ (JsonWriter.count s v).Medium = s.Medium + countSeverity "MEDIUM" [v]
    ∧ (JsonWriter.count s v).Low = s.Low + countSeverity "LOW" [v]
    ∧ (JsonWriter.count s v).Unknown = s.Unknown + countOther [v]
    ∧ (JsonWriter.count s v).OsFamily = s.OsFamily
    ∧ (JsonWriter.count s v).OsVersion = s.OsVersion := by
  have hc : vulnerability.severityName vulnerability.SeverityCritical = "CRITICAL" := by decide
  have hh : vulnerability.severityName vulnerability.SeverityHigh = "HIGH" := by decide
  have hm : vulnerability.severityName vulnerability.SeverityMedium = "MEDIUM" := by decide
  have hl : vulnerability.severityName vulnerability.SeverityLow = "LOW" := by decide
  unfold JsonWriter.count countSeverity countOther
  rw [hc, hh, hm, hl]
  by_cases h1 : v.Severity = "CRITICAL"
  · simp [h1, List.countP_cons]
  · by_cases h2 : v.Severity = "HIGH"
    · simp [h2, List.countP_cons]
    · by_cases h3 : v.Severity = "MEDIUM"
      · simp [h3, List.countP_cons]
      · by_cases h4 : v.Severity = "LOW"
        · simp [h4, List.countP_cons]
        · simp [h1, h2, h3, h4, List.countP_cons]

/-- The inner loop adds, to every counter, the matching count of the findings
of one target. -/
theorem foldl_count_fields (vs : List DetectedVulnerability) (s : JsonSummary) :
    (vs.foldl JsonWriter.count s).Critical = s.Critical + countSeverity "CRITICAL" vs
    ∧ (vs.foldl JsonWriter.count s).High = s.High + countSeverity "HIGH" vs
    ∧ (vs.foldl JsonWriter.count s).Medium = s.Medium + countSeverity "MEDIUM" vs
    ∧ (vs.foldl JsonWriter.count s).Low = s.Low + countSeverity "LOW" vs
    ∧ (vs.foldl JsonWriter.count s).Unknown = s.Unknown + countOther vs
    ∧ (vs.foldl JsonWriter.count s).OsFamily = s.OsFamily
    ∧ (vs.foldl JsonWriter.count s).OsVersion = s.OsVersion := by
  induction vs generalizing s with
  | nil => simp [countSeverity, countOther]
  | cons v vs ih =>
    obtain ⟨a1, a2, a3, a4, a5, a6, a7⟩ := count_fields s v
    obtain ⟨b1, b2, b3, b4, b5, b6, b7⟩ := ih (JsonWriter.count s v)
    have e : v :: vs = [v] ++ vs := rfl
    simp only [List.foldl_cons]
    rw [e, countSeverity_append, countSeverity_append, countSeverity_append,
      countSeverity_append, countOther_append]
    refine ⟨?_, ?_, ?_, ?_, ?_, ?_, ?_⟩
    · rw [b1, a1]; omega
    · rw [b2, a2]; omega
    · rw [b3, a3]; omega
    · rw [b4, a4]; omega
    · rw [b5, a5]; omega
    · rw [b6, a6]
    · rw [b7, a7]

/-- The outer loop adds, to every counter, the matching count over all
findings of all targets. -/
theorem foldl_results_fields (results : Results) (s : JsonSummary) :
    let t := results.foldl
      (fun summary result => result.Vulnerabilities.foldl JsonWriter.count summary) s
    t.Critical = s.Critical + countSeverity "CRITICAL" (findings results)
    ∧ t.High = s.High + countSeverity "HIGH" (findings results)
    ∧ t.Medium = s.Medium + countSeverity "MEDIUM" (findings results)
    ∧ t.Low = s.Low + countSeverity "LOW" (findings results)
    ∧ t.Unknown = s.Unknown + countOther (findings results)
    ∧ t.OsFamily = s.OsFamily
    ∧ t.OsVersion = s.OsVersion := by
  induction results generalizing s with
  | nil => simp [findings, countSeverity, countOther]
  | cons r rs ih =>
    obtain ⟨a1, a2, a3, a4, a5, a6, a7⟩ := foldl_count_fields r.Vulnerabilities s
    obtain ⟨b1, b2, b3, b4, b5, b6, b7⟩ := ih (r.Vulnerabilities.foldl JsonWriter.count s)
    simp only [List.foldl_cons, findings]
    rw [countSeverity_append, countSeverity_append, countSeverity_append,
      countSeverity_append, countOther_append]
    refine ⟨?_, ?_, ?_, ?_, ?_, ?_, ?_⟩
    · rw [b1, a1]; omega
    · rw [b2, a2]; omega
    · rw [b3, a3]; omega
    · rw [b4, a4]; omega
    · rw [b5, a5]; omega
    · rw [b6, a6]
    · rw [b7, a7]

/-- Every finding falls in exactly one of the five classes. -/
theorem classes_partition (vs : List DetectedVulnerability) :
    countSeverity "CRITICAL" vs + countSeverity "HIGH" vs + countSeverity "MEDIUM" vs
      + countSeverity "LOW" vs + countOther vs = vs.length := by
  induction vs with
  | nil => simp [countSeverity, countOther]
  | cons v vs ih =>
    have e : v :: vs = [v] ++ vs := rfl
    rw [e, countSeverity_append, countSeverity_append, countSeverity_append,
      countSeverity_append, countOther_append, List.length_append]
    have h1 : countSeverity "CRITICAL" [v] + countSeverity "HIGH" [v]
        + countSeverity "MEDIUM" [v] + countSeverity "LOW" [v] + countOther [v] = 1 := by
      unfold countSeverity countOther
      by_cases h1 : v.Severity = "CRITICAL"
      · simp [h1, List.countP_cons]
      · by_cases h2 : v.Severity = "HIGH"
        · simp [h2, List.countP_cons]
        · by_cases h3 : v.Severity = "MEDIUM"
          · simp [h3, List.countP_cons]
          · by_cases h4 : v.Severity = "LOW"
            · simp [h4, List.countP_cons]
            · simp [h1, h2, h3, h4, List.countP_cons]
    simp only [List.length_singleton]
    omega

/-- The summary computed by the two loops, field by field. -/
theorem summary_eq_counts (osFamily osVersion : String) (results : Results) :
    JsonWriter.summary osFamily osVersion results
      = { OsFamily := osFamily, OsVersion := osVersion,
          Critical := countSeverity "CRITICAL" (findings results),
          High := countSeverity "HIGH" (findings results),
          Medium := countSeverity "MEDIUM" (findings results),
          Low := countSeverity "LOW" (findings results),
          Unknown := countOther (findings results) } := by
  obtain ⟨a1, a2, a3, a4, a5, a6, a7⟩ := foldl_results_fields results
    { OsFamily := osFamily, OsVersion := osVersion,
      Critical := 0, High := 0, Medium := 0, Low := 0, Unknown := 0 }
  simp only [Nat.zero_add] at a1 a2 a3 a4 a5 a6 a7
  unfold JsonWriter.summary
  rcases hs : (results.foldl
      (fun summary result => result.Vulnerabilities.foldl JsonWriter.count summary)
      ({ OsFamily := osFamily, OsVersion := osVersion,
         Critical := 0, High := 0, Medium := 0, Low := 0, Unknown := 0 } : JsonSummary))
    with ⟨f, v, c, h, m, l, u⟩
  rw [hs] at a1 a2 a3 a4 a5 a6 a7
  simp only at a1 a2 a3 a4 a5 a6 a7
  rw [hs, a1, a2, a3, a4, a5, a6, a7]

/-- Claim C1. For every result set, `JsonWriter.Write` hands the encoder the
document whose detail is the result set and whose summary counts over all
findings of all targets together: Critical, High, Medium and Low are the
numbers of findings whose severity is exactly that name and Unknown is the
number of all remaining findings; what `Write` returns and writes is decided by
the encoding of that very document; and the five counts add up to the total
number of findings across all targets. -/
theorem JsonWriter_Write_summary_counts (env : Env) (jw : JsonWriter)
    (osFamily osVersion : String) (results : Results) (w : World) :
    JsonWriter.Write env jw osFamily osVersion results w
      = (match env.MarshalIndent
            { Summary :=
                { OsFamily := osFamily, OsVersion := osVersion,
                  Critical := countSeverity "CRITICAL" (findings results),
                  High := countSeverity "HIGH" (findings results),
                  Medium := countSeverity "MEDIUM" (findings results),
                  Low := countSeverity "LOW" (findings results),
                  Unknown := countOther (findings results) },
              Detail := results } "" "  " with
          | Except.error err => (some ("failed to marshal json: " ++ err), w)
          | Except.ok output =>
            match env.writeError jw.Output with
            | some err => (some ("failed to write json: " ++ err), w)
            | none => (none, w.emit jw.Output output))
    ∧ (JsonWriter.outputStruct osFamily osVersion results).Summary
        = JsonWriter.summary osFamily osVersion results
    ∧ (JsonWriter.summary osFamily osVersion results).Critical
        = countSeverity "CRITICAL" (findings results)
    ∧ (JsonWriter.summary osFamily osVersion results).High
        = countSeverity "HIGH" (findings results)
    ∧ (JsonWriter.summary osFamily osVersion results).Medium
        = countSeverity "MEDIUM" (findings results)
    ∧ (JsonWriter.summary osFamily osVersion results).Low
        = countSeverity "LOW" (findings results)
    ∧ (JsonWriter.summary osFamily osVersion results).Unknown
        = countOther (findings results)
    ∧ (JsonWriter.summary osFamily osVersion results).Critical
        + (JsonWriter.summary osFamily osVersion results).High
        + (JsonWriter.summary osFamily osVersion results).Medium
        + (JsonWriter.summary osFamily osVersion results).Low
        + (JsonWriter.summary osFamily osVersion results).Unknown
        = (findings results).length := by
  have hs := summary_eq_counts osFamily osVersion results
  have hp := classes_partition (findings results)
  refine ⟨?_, rfl, ?_, ?_, ?_, ?_, ?_, ?_⟩
  · unfold JsonWriter.Write JsonWriter.outputStruct
    rw [hs]
  · rw [hs]
  · rw [hs]
  · rw [hs]
  · rw [hs]
  · rw [hs]
  · rw [hs]
    exact hp

end report

/-! ## The tabular writer: total line, underline and sinks -/

namespace report

/-- The severity map after the loop holds, under every key, the number of
findings whose raw severity is exactly that key. -/
theorem foldl_step_count (env : Env) (tw : TableWriter) (vs : List DetectedVulnerability)
    (st : CountMap × Table) (k : String) :
    (vs.foldl (TableWriter.step env tw) st).1 k = st.1 k + countSeverity k vs := by
  induction vs generalizing st with
  | nil => simp [countSeverity]
  | cons v vs ih =>
    simp only [List.foldl_cons]
    rw [ih]
    have h1 : (TableWriter.step env tw st v).1 k = st.1 k + countSeverity k [v] := by
      unfold TableWriter.step countSeverity CountMap.incr
      by_cases hk : k = v.Severity
      · by_cases ho : tw.Output = IoWriter.osStdout <;> simp [hk, ho, List.countP_cons]
      · have hk' : ¬ v.Severity = k := fun h => hk h.symm
        by_cases ho : tw.Output = IoWriter.osStdout <;> simp [hk, hk', ho, List.countP_cons]
    have e : v :: vs = [v] ++ vs := rfl
    rw [h1, e, countSeverity_append]
    omega

theorem loop_count (env : Env) (tw : TableWriter) (result : Result) (k : String) :
    (TableWriter.loop env tw result).1 k = countSeverity k result.Vulnerabilities := by
  unfold TableWriter.loop
  rw [foldl_step_count]
  simp

/-- The table is created on the writer's sink and stays there. -/
theorem foldl_step_out (env : Env) (tw : TableWriter) (vs : List DetectedVulnerability)
    (st : CountMap × Table) :
    (vs.foldl (TableWriter.step env tw) st).2.out = st.2.out := by
  induction vs generalizing st with
  | nil => rfl
  | cons v vs ih =>
    simp only [List.foldl_cons]
    rw [ih]
    unfold TableWriter.step Table.Append
    by_cases ho : tw.Output = IoWriter.osStdout <;> simp [ho]

/-- Claim C2, the code at the failing input. A target whose single finding has
the empty severity string: the total line reports one finding, yet every count
it lists, UNKNOWN included, is zero. -/
theorem TableWriter_total_line_empty_severity (env : Env) (tw : TableWriter) :
    TableWriter.shownCounts env tw
        ⟨"t", [⟨"CVE-1", "pkg", "1.0", "1.1", "title", "", ""⟩]⟩ = [0, 0, 0, 0, 0]
    ∧ TableWriter.headerText env tw
        ⟨"t", [⟨"CVE-1", "pkg", "1.0", "1.1", "title", "", ""⟩]⟩
      = "\nt\n=\nTotal: 1 (CRITICAL: 0, HIGH: 0, MEDIUM: 0, LOW: 0, UNKNOWN: 0)\n\n" := by
  constructor
  · unfold TableWriter.shownCounts
    simp only [loop_count]
    decide
  · unfold TableWriter.headerText
    simp only [loop_count]
    decide

/-- Claim C10, the code at the failing input. With a sink other than the
process standard output and a target without findings, the sink receives
nothing: the target name, the underline and the total line are appended to the
process standard output instead. -/
theorem TableWriter_header_goes_to_stdout (env : Env) (name : String) (w : World) :
    (TableWriter.write env ⟨IoWriter.other⟩ ⟨name, []⟩ w).sink = w.sink
    ∧ (TableWriter.write env ⟨IoWriter.other⟩ ⟨name, []⟩ w).stdout
      = w.stdout ++ ("\n" ++ name ++ "\n" ++ (strings.Repeat "=" (len name) ++ "\n")
          ++ "Total: 0 (CRITICAL: 0, HIGH: 0, MEDIUM: 0, LOW: 0, UNKNOWN: 0)\n\n") := by
  constructor
  · simp [TableWriter.write, World.emit]
  · simp only [TableWriter.write, World.emit, TableWriter.headerText, loop_count, underline,
      List.length_nil, if_true]
    rfl

end report

/-! ## The underline -/

namespace report

theorem Repeat_data (c : Char) (n : Nat) :
    (strings.Repeat (String.singleton c) n).data = List.replicate n c := by
  induction n with
  | zero => rfl
  | succ n ih =>
    simp only [strings.Repeat, String.data_append, ih, List.replicate_succ]
    rfl

/-- A character below 128 takes one byte in UTF-8. -/
theorem utf8Size_ascii (c : Char) (h : c.val.toNat < 128) : c.utf8Size = 1 := by
  unfold Char.utf8Size
  have h1 : c.val ≤ UInt32.ofNatCore 127 (by decide) := by
    show c.val.toNat ≤ 127
    omega
  exact if_pos h1

theorem utf8ByteSize_go_ascii (l : List Char) (h : ∀ c ∈ l, c.val.toNat < 128) :
    String.utf8ByteSize.go l = l.length := by
  induction l with
  | nil => rfl
  | cons c cs ih =>
    simp only [String.utf8ByteSize.go, List.length_cons]
    rw [ih (fun d hd => h d (List.mem_cons_of_mem _ hd)), utf8Size_ascii c (h c (List.mem_cons_self _ _))]

/-- Claim C9, amended. The underline consists only of `=` characters and is as
long as the UTF-8 encoding of the target name has bytes; for a name of ASCII
characters only, that is the number of characters of the name. -/
theorem underline_length_is_byte_length (result : Result) :
    (∀ c ∈ (underline result).data, c = '=')
    ∧ (underline result).length = result.FileName.utf8ByteSize
    ∧ ((∀ c ∈ result.FileName.data, c.val.toNat < 128) →
        (underline result).length = result.FileName.length) := by
  have hd : (underline result).data = List.replicate (len result.FileName) '=' :=
    Repeat_data '=' (len result.FileName)
  refine ⟨?_, ?_, ?_⟩
  · intro c hc
    rw [hd] at hc
    exact List.eq_of_mem_replicate hc
  · show (underline result).data.length = _
    rw [hd, List.length_replicate]
    rfl
  · intro h
    show (underline result).data.length = result.FileName.data.length
    rw [hd, List.length_replicate]
    show String.utf8ByteSize.go result.FileName.data = _
    exact utf8ByteSize_go_ascii _ h

/-- Witness of `underline_length_is_byte_length` at the ASCII name `alpine:3.10`. -/
theorem underline_length_is_byte_length_witness :
    (∀ c ∈ ("alpine:3.10" : String).data, c.val.toNat < 128)
    ∧ (underline ⟨"alpine:3.10", []⟩).length = 11 :=
  ⟨by decide, (underline_length_is_byte_length ⟨"alpine:3.10", []⟩).2.2 (by decide)⟩

/-- Claim C9 as stated fails at a name with a non-ASCII character: the name
`é` has one character and its underline has two. -/
theorem underline_not_character_length :
    ("é" : String).length = 1 ∧ (underline ⟨"é", []⟩).length = 2 := by
  decide

end report

/-! ## Title truncation -/

namespace strings

theorem splitChars_ne_nil (sep : Char) (l : List Char) : splitChars sep l ≠ [] := by
  cases l with
  | nil => simp [splitChars]
  | cons c cs =>
    unfold splitChars
    by_cases h : c = sep <;> simp [h]

/-- One more piece than separators. -/
theorem splitChars_length (sep : Char) (l : List Char) :
    (splitChars sep l).length = l.count sep + 1 := by
  induction l with
  | nil => simp [splitChars]
  | cons c cs ih =>
    have hne := splitChars_ne_nil sep cs
    unfold splitChars
    by_cases h : c = sep
    · subst h
      simp [ih]
    · have hlen : (splitChars sep cs).tail.length + 1 = (splitChars sep cs).length := by
        cases hs : splitChars sep cs with
        | nil => exact absurd hs hne
        | cons p ps => simp
      simp only [h, if_false, List.length_cons, hlen, ih]
      rw [List.count_cons_of_ne (fun e => h e.symm)]

/-- Prepending a character to the first element of a joined list prepends it
to the joined string. -/
theorem Join_cons_head (c : Char) (p : List Char) (rest : List String) (sep : String) :
    Join (String.mk (c :: p) :: rest) sep
      = String.mk (c :: (Join (String.mk p :: rest) sep).data) := by
  cases rest with
  | nil => rfl
  | cons q qs =>
    simp only [Join]
    apply String.ext
    simp [String.data_append]

/-- Joining the pieces with the separator gives the string back. -/
theorem Join_splitChars (sep : Char) (l : List Char) :
    Join ((splitChars sep l).map String.mk) (String.singleton sep) = String.mk l := by
  induction l with
  | nil => rfl
  | cons c cs ih =>
    have hne := splitChars_ne_nil sep cs
    unfold splitChars
    cases hs : splitChars sep cs with
    | nil => exact absurd hs hne
    | cons p ps =>
      rw [hs] at ih
      by_cases h : c = sep
      · subst h
        simp only [if_true, List.map_cons, Join]
        simp only [List.map_cons] at ih
        rw [ih]
        apply String.ext
        simp [String.data_append, String.singleton]
      · simp only [h, if_false, List.headD_cons, List.tail_cons, List.map_cons]
        simp only [List.map_cons] at ih
        rw [Join_cons_head, ih]

theorem Split_length (s : String) (sep : Char) :
    (Split s sep).length = s.data.count sep + 1 := by
  simp [Split, splitChars_length]

theorem Join_Split (s : String) (sep : Char) :
    Join (Split s sep) (String.singleton sep) = s := by
  unfold Split
  rw [Join_splitChars]

theorem splitChars_cons_ne (sep c : Char) (cs : List Char) (h : c ≠ sep) :
    splitChars sep (c :: cs)
      = (c :: (splitChars sep cs).headD []) :: (splitChars sep cs).tail := by
  rw [splitChars]
  simp [h]

/-- Splitting a piece without separator followed by a separator and more. -/
theorem splitChars_append_sep (sep : Char) (p rest : List Char) (hp : sep ∉ p) :
    splitChars sep (p ++ sep :: rest) = p :: splitChars sep rest := by
  induction p with
  | nil => simp [splitChars]
  | cons c cs ih =>
    have hc : c ≠ sep := fun e => hp (by simp [e])
    have hcs : sep ∉ cs := fun e => hp (List.mem_cons_of_mem _ e)
    simp only [List.cons_append]
    rw [splitChars_cons_ne sep c _ hc, ih hcs]
    simp

theorem splitChars_no_sep (sep : Char) (p : List Char) (hp : sep ∉ p) :
    splitChars sep p = [p] := by
  induction p with
  | nil => rfl
  | cons c cs ih =>
    have hc : c ≠ sep := fun e => hp (by simp [e])
    have hcs : sep ∉ cs := fun e => hp (List.mem_cons_of_mem _ e)
    rw [splitChars_cons_ne sep c _ hc, ih hcs]
    simp

/-- Splitting a join of separator-free words gives the words back. -/
theorem Split_Join (sep : Char) (words : List String) (hne : words ≠ [])
    (hw : ∀ w ∈ words, sep ∉ w.data) :
    Split (Join words (String.singleton sep)) sep = words := by
  induction words with
  | nil => exact absurd rfl hne
  | cons a rest ih =>
    cases rest with
    | nil =>
      simp only [Join, Split]
      rw [splitChars_no_sep sep a.data (hw a (List.mem_cons_self _ _))]
      rfl
    | cons b bs =>
      have ih' := ih (by simp) (fun w hm => hw w (List.mem_cons_of_mem _ hm))
      simp only [Join, Split] at ih' ⊢
      have hd : (a ++ String.singleton sep ++ Join (b :: bs) (String.singleton sep)).data
          = a.data ++ sep :: (Join (b :: bs) (String.singleton sep)).data := by
        simp [String.data_append, String.singleton]
      rw [hd, splitChars_append_sep sep _ _ (hw a (List.mem_cons_self _ _))]
      simp only [List.map_cons]
      rw [ih']

end strings

namespace report

/-- Claim C7, amended. The title column is computed from the display title by
cutting it at every single space character: there is one more piece than
there are spaces, and the pieces joined by single spaces are the display
title; with 12 or more pieces the column is the first 12 pieces joined by
single spaces followed by the marker `...`, otherwise it is the display title
unchanged. -/
theorem titleColumn_splits_at_spaces (v : DetectedVulnerability) :
    (strings.Split (displayTitle v) (Char.ofNat 32)).length
        = (displayTitle v).data.count (Char.ofNat 32) + 1
    ∧ strings.Join (strings.Split (displayTitle v) (Char.ofNat 32)) " " = displayTitle v
    ∧ (12 ≤ (strings.Split (displayTitle v) (Char.ofNat 32)).length →
        titleColumn v
          = strings.Join ((strings.Split (displayTitle v) (Char.ofNat 32)).take 12) " "
              ++ "...")
    ∧ ((strings.Split (displayTitle v) (Char.ofNat 32)).length < 12 →
        titleColumn v = displayTitle v) := by
  refine ⟨strings.Split_length _ _, strings.Join_Split _ (Char.ofNat 32), ?_, ?_⟩
  · intro h
    unfold titleColumn
    simp only [ge_iff_le, h, if_true]
  · intro h
    unfold titleColumn
    have h' : ¬ 12 ≤ (strings.Split (displayTitle v) (Char.ofNat 32)).length := by omega
    simp only [ge_iff_le, h', if_false]

/-- Witness of `titleColumn_splits_at_spaces`: a title of 13 words is cut to
its first 12 words, a title of 3 words is kept. -/
theorem titleColumn_splits_at_spaces_witness :
    titleColumn ⟨"CVE-1", "pkg", "1.0", "1.1", "a b c d e f g h i j k l m", "", "HIGH"⟩
        = "a b c d e f g h i j k l..."
    ∧ titleColumn ⟨"CVE-1", "pkg", "1.0", "1.1", "", "heap buffer overflow", "HIGH"⟩
        = "heap buffer overflow" :=
  ⟨(titleColumn_splits_at_spaces
      ⟨"CVE-1", "pkg", "1.0", "1.1", "a b c d e f g h i j k l m", "", "HIGH"⟩).2.2.1
      (by decide),
   (titleColumn_splits_at_spaces
      ⟨"CVE-1", "pkg", "1.0", "1.1", "", "heap buffer overflow", "HIGH"⟩).2.2.2
      (by decide)⟩

/-- Claim C7 as stated fails at a title whose words are separated by two
spaces: it has 7 whitespace-separated words, fewer than 12, yet the column is
cut after the sixth word and carries the marker. -/
theorem titleColumn_not_whitespace_words :
    (strings.Fields (displayTitle
        ⟨"CVE-1", "pkg", "1.0", "1.1", "a  b  c  d  e  f  g", "", "HIGH"⟩)).length = 7
    ∧ titleColumn ⟨"CVE-1", "pkg", "1.0", "1.1", "a  b  c  d  e  f  g", "", "HIGH"⟩
        = "a  b  c  d  e  f ..."
    ∧ titleColumn ⟨"CVE-1", "pkg", "1.0", "1.1", "a  b  c  d  e  f  g", "", "HIGH"⟩
        ≠ specTitleColumn ⟨"CVE-1", "pkg", "1.0", "1.1", "a  b  c  d  e  f  g", "", "HIGH"⟩ := by
  decide

/-- Claim C8, amended. A title of exactly 12 words joined by single spaces is
shown in full, followed by the marker `...`. -/
theorem titleColumn_twelve_words (v : DetectedVulnerability) (words : List String)
    (hlen : words.length = 12) (hw : ∀ w ∈ words, Char.ofNat 32 ∉ w.data)
    (ht : v.Title = strings.Join words " ") :
    titleColumn v = v.Title ++ "..." := by
  have hne : words ≠ [] := by
    intro e
    rw [e] at hlen
    simp at hlen
  have hsplit : strings.Split v.Title (Char.ofNat 32) = words := by
    rw [ht]
    exact strings.Split_Join (Char.ofNat 32) words hne hw
  have htitle : v.Title ≠ "" := by
    intro e
    rw [e] at hsplit
    have h1 : (strings.Split "" (Char.ofNat 32)).length = 1 := by decide
    rw [hsplit, hlen] at h1
    omega
  have hd : displayTitle v = v.Title := by
    unfold displayTitle
    simp [htitle]
  unfold titleColumn
  simp only [hd, hsplit, hlen, ge_iff_le, le_refl, if_true]
  rw [← hlen, List.take_length, ← ht]

/-- Witness of `titleColumn_twelve_words` at the title `a b c d e f g h i j k l`. -/
theorem titleColumn_twelve_words_witness :
    titleColumn ⟨"CVE-1", "pkg", "1.0", "1.1", "a b c d e f g h i j k l", "", "HIGH"⟩
      = "a b c d e f g h i j k l" ++ "..." :=
  titleColumn_twelve_words
    ⟨"CVE-1", "pkg", "1.0", "1.1", "a b c d e f g h i j k l", "", "HIGH"⟩
    ["a", "b", "c", "d", "e", "f", "g", "h", "i", "j", "k", "l"]
    (by decide) (by decide) (by decide)

/-- Claim C8 as stated fails at a title of exactly 12 words: the column is not
the title itself, the marker is appended. -/
theorem titleColumn_twelve_words_marked :
    (strings.Fields "a b c d e f g h i j k l").length = 12
    ∧ titleColumn ⟨"CVE-1", "pkg", "1.0", "1.1", "a b c d e f g h i j k l", "", "HIGH"⟩
        ≠ "a b c d e f g h i j k l" := by
  decide

end report

/-! ## Go maps -/

namespace GoMap

variable {α : Type}

theorem get?_set_self (m : GoMap α) (k : String) (v : α) : (m.set k v).get? k = some v := by
  simp [GoMap.set, GoMap.get?]

theorem get?_filter_ne (m : GoMap α) (k k' : String) (h : k' ≠ k) :
    GoMap.get? (m.filter (fun e => decide (e.1 ≠ k))) k' = GoMap.get? m k' := by
  induction m with
  | nil => rfl
  | cons e es ih =>
    unfold GoMap.get? at ih ⊢
    by_cases he : e.1 = k
    · have hk' : ¬ e.1 = k' := fun x => h (x.symm.trans he)
      rw [List.filter_cons_of_neg (by simp [he]), List.find?_cons_of_neg _ (by simp [hk'])]
      exact ih
    · rw [List.filter_cons_of_pos (by simp [he])]
      by_cases hk' : e.1 = k'
      · rw [List.find?_cons_of_pos _ (by simp [hk']), List.find?_cons_of_pos _ (by simp [hk'])]
      · rw [List.find?_cons_of_neg _ (by simp [hk']), List.find?_cons_of_neg _ (by simp [hk'])]
        exact ih

theorem get?_set_ne (m : GoMap α) (k k' : String) (v : α) (h : k' ≠ k) :
    (m.set k v).get? k' = m.get? k' := by
  have hk : ¬ k = k' := fun x => h x.symm
  have := get?_filter_ne m k k' h
  unfold GoMap.get? at this ⊢
  unfold GoMap.set
  rw [List.find?_cons_of_neg _ (by simp [hk])]
  exact this

theorem keys_set (m : GoMap α) (k : String) (v : α) :
    (m.set k v).keys = k :: m.keys.filter (fun x => decide (x ≠ k)) := by
  unfold GoMap.set GoMap.keys
  simp only [List.map_cons, List.cons.injEq, true_and]
  induction m with
  | nil => rfl
  | cons e es ih =>
    by_cases he : e.1 = k
    · rw [List.filter_cons_of_neg (by simp [he]), List.map_cons,
        List.filter_cons_of_neg (by simp [he])]
      exact ih
    · rw [List.filter_cons_of_pos (by simp [he]), List.map_cons, List.map_cons,
        List.filter_cons_of_pos (by simp [he]), ih]

theorem length_set_new (m : GoMap α) (k : String) (v : α) (h : k ∉ m.keys) :
    (m.set k v).length = m.length + 1 := by
  unfold GoMap.set
  have hf : m.filter (fun e => decide (e.1 ≠ k)) = m := by
    apply List.filter_eq_self.mpr
    intro e he
    have : e.1 ≠ k := fun x => h (by rw [← x]; exact List.mem_map_of_mem Prod.fst he)
    simp [this]
  rw [hf, List.length_cons]

theorem nodup_keys_set (m : GoMap α) (k : String) (v : α) (h : m.keys.Nodup) :
    (m.set k v).keys.Nodup := by
  rw [keys_set]
  apply List.Nodup.cons
  · simp [List.mem_filter]
  · exact h.filter _

theorem mem_keys_set (m : GoMap α) (k k' : String) (v : α) :
    k' ∈ (m.set k v).keys ↔ k' = k ∨ k' ∈ m.keys := by
  rw [keys_set]
  by_cases h : k' = k
  · simp [h]
  · simp [List.mem_filter, h]

theorem nodup_keys_setAll (src dst : GoMap α) (h : dst.keys.Nodup) :
    (GoMap.setAll dst src).keys.Nodup := by
  induction src generalizing dst with
  | nil => exact h
  | cons e es ih =>
    unfold GoMap.setAll
    simp only [List.foldl_cons]
    exact ih _ (nodup_keys_set dst e.1 e.2 h)

theorem get?_setAll_not_mem (src dst : GoMap α) (k : String) (h : k ∉ src.keys) :
    (GoMap.setAll dst src).get? k = dst.get? k := by
  induction src generalizing dst with
  | nil => rfl
  | cons e es ih =>
    have h1 : k ≠ e.1 := fun x => h (by simp [GoMap.keys, x])
    have h2 : k ∉ GoMap.keys es := fun x => h (by
      simp only [GoMap.keys, List.map_cons, List.mem_cons]
      exact Or.inr x)
    unfold GoMap.setAll
    simp only [List.foldl_cons]
    have := ih (dst.set e.1 e.2) h2
    unfold GoMap.setAll at this
    rw [this, get?_set_ne dst e.1 k e.2 h1]

theorem get?_setAll_mem (src dst : GoMap α) (hnd : src.keys.Nodup)
    (p : String) (vs : α) (hm : (p, vs) ∈ src) :
    (GoMap.setAll dst src).get? p = some vs := by
  induction src generalizing dst with
  | nil => simp at hm
  | cons e es ih =>
    have hnd' : (e.1 :: GoMap.keys es).Nodup := hnd
    rw [List.nodup_cons] at hnd'
    unfold GoMap.setAll
    simp only [List.foldl_cons]
    rcases List.mem_cons.mp hm with h | h
    · have hnot : p ∉ GoMap.keys es := by
        rw [← h] at hnd'
        exact hnd'.1
      have := get?_setAll_not_mem es (dst.set e.1 e.2) p hnot
      unfold GoMap.setAll at this
      rw [this, ← h]
      exact get?_set_self dst p vs
    · have := ih (dst.set e.1 e.2) hnd'.2 h
      unfold GoMap.setAll at this
      exact this

theorem length_setAll (src dst : GoMap α) (hnd : src.keys.Nodup)
    (hdis : ∀ k ∈ src.keys, k ∉ dst.keys) :
    (GoMap.setAll dst src).length = dst.length + src.length := by
  induction src generalizing dst with
  | nil => rfl
  | cons e es ih =>
    have hnd' : (e.1 :: GoMap.keys es).Nodup := hnd
    rw [List.nodup_cons] at hnd'
    have he : e.1 ∉ dst.keys := hdis e.1 (by simp [GoMap.keys])
    unfold GoMap.setAll
    simp only [List.foldl_cons]
    have hdis' : ∀ k ∈ GoMap.keys es, k ∉ (dst.set e.1 e.2).keys := by
      intro k hk hmem
      rcases (mem_keys_set dst e.1 k e.2).mp hmem with h | h
      · rw [h] at hk
        exact hnd'.1 hk
      · exact hdis k (by
          simp only [GoMap.keys, List.map_cons, List.mem_cons]
          exact Or.inr hk) h
    have := ih (dst.set e.1 e.2) hnd'.2 hdis'
    unfold GoMap.setAll at this
    rw [this, length_set_new dst e.1 e.2 he]
    simp only [List.length_cons]
    omega

end GoMap

/-! ## OS package scan and image scan: error paths -/

namespace scanner

theorem selectScanner_unsupported (family : String)
    (h : family ≠ fos.Alpine ∧ family ≠ fos.Debian ∧ family ≠ fos.Ubuntu
      ∧ family ≠ fos.RedHat ∧ family ≠ fos.CentOS) :
    ospkg.selectScanner family = none := by
  obtain ⟨h1, h2, h3, h4, h5⟩ := h
  unfold ospkg.selectScanner
  simp [h1, h2, h3, h4, h5]

/-- An error of `ospkg.Scan` ends the OS part of `ScanImage` with the wrapped
error and the `nil` map. -/
theorem scanFiles_of_Scan_error (env : Env) (target : String) (files : extractor.FileMap)
    (scanOptions : types.ScanOptions) (a b : String) (c : List DetectedVulnerability)
    (e : String) (tr : List Call)
    (hos : utils.StringInSlice "os" scanOptions.VulnType = true)
    (h : ospkg.Scan env files = (⟨a, b, c, some e⟩, tr)) :
    scanFiles env target files scanOptions
      = (⟨"", "", none, some ("failed to scan image: " ++ e)⟩, tr) := by
  unfold scanFiles scanOS
  simp only [hos, if_true, h]

/-- `ScanImage` after a successful extraction. -/
theorem ScanImage_of_extract (env : Env) (imageName filePath : String)
    (scanOptions : types.ScanOptions) (target : String) (files : extractor.FileMap)
    (tr : List Call)
    (h : extract env imageName filePath = (Outcome.returned (Except.ok (target, files)), tr)) :
    ScanImage env imageName filePath scanOptions
      = (Outcome.returned (scanFiles env target files scanOptions).1,
          tr ++ (scanFiles env target files scanOptions).2) := by
  unfold ScanImage
  simp only [h]

/-- Claim C4. When the identified OS family is none of the supported variants,
`ospkg.Scan` returns the error `unsupported os` with empty family, empty
version and no findings, having called OS identification only (no package
enumeration, no detector); a `ScanImage` call that requested `os` scanning
then returns the wrapped error with empty family and version and the `nil`
map, whatever else was requested, and does not reach the library scan. -/
theorem Scan_unsupported_family_fails (env : Env) (files : extractor.FileMap)
    (os : analyzer.OS) (hos : env.GetOS files = Except.ok os)
    (hfam : os.Family ≠ fos.Alpine ∧ os.Family ≠ fos.Debian ∧ os.Family ≠ fos.Ubuntu
      ∧ os.Family ≠ fos.RedHat ∧ os.Family ≠ fos.CentOS) :
    ospkg.Scan env files = (⟨"", "", [], some "unsupported os"⟩, [Call.GetOS])
    ∧ (∀ d, Call.Detect d ∉ (ospkg.Scan env files).2)
    ∧ ∀ (imageName filePath : String) (scanOptions : types.ScanOptions)
        (target : String) (tr : List Call),
        extract env imageName filePath
          = (Outcome.returned (Except.ok (target, files)), tr) →
        utils.StringInSlice "os" scanOptions.VulnType = true →
        ScanImage env imageName filePath scanOptions
          = (Outcome.returned ⟨"", "", none, some ("failed to scan image: " ++ "unsupported os")⟩,
              tr ++ [Call.GetOS]) := by
  have hscan : ospkg.Scan env files = (⟨"", "", [], some "unsupported os"⟩, [Call.GetOS]) := by
    unfold ospkg.Scan
    simp only [hos, selectScanner_unsupported os.Family hfam]
  refine ⟨hscan, ?_, ?_⟩
  · intro d
    rw [hscan]
    simp
  · intro imageName filePath scanOptions target tr hex hreq
    rw [ScanImage_of_extract env imageName filePath scanOptions target files tr hex,
      scanFiles_of_Scan_error env target files scanOptions "" "" [] "unsupported os"
        [Call.GetOS] hreq hscan]

/-- Witness of `Scan_unsupported_family_fails`: an image identified as Fedora,
scanned for `os` and `library`. -/
theorem Scan_unsupported_family_fails_witness :
    ScanImage (sampleEnv (Except.ok ⟨"30", "fedora"⟩)
        [("app/Gemfile.lock", [sampleVuln "CVE-2019-5477"])]) "img" "" ⟨["os", "library"]⟩
      = (Outcome.returned ⟨"", "", none, some "failed to scan image: unsupported os"⟩,
          [Call.GetDockerOption, Call.Analyze "img", Call.GetOS]) :=
  (Scan_unsupported_family_fails
    (sampleEnv (Except.ok ⟨"30", "fedora"⟩) [("app/Gemfile.lock", [sampleVuln "CVE-2019-5477"])])
    [] ⟨"30", "fedora"⟩ rfl (by decide)).2.2
    "img" "" ⟨["os", "library"]⟩ "img" [Call.GetDockerOption, Call.Analyze "img"] rfl rfl

/-- Claim C3, amended. When OS identification fails, `ospkg.Scan` returns the
wrapped error with empty family, empty version and no findings, having called
OS identification only; a `ScanImage` call that requested `os` scanning then
returns the wrapped error with empty family and version and the `nil` map. -/
theorem Scan_os_absent_is_error (env : Env) (files : extractor.FileMap) (e : String)
    (hos : env.GetOS files = Except.error e) :
    ospkg.Scan env files
      = (⟨"", "", [], some ("failed to analyze OS: " ++ e)⟩, [Call.GetOS])
    ∧ ∀ (imageName filePath : String) (scanOptions : types.ScanOptions)
        (target : String) (tr : List Call),
        extract env imageName filePath
          = (Outcome.returned (Except.ok (target, files)), tr) →
        utils.StringInSlice "os" scanOptions.VulnType = true →
        ScanImage env imageName filePath scanOptions
          = (Outcome.returned
              ⟨"", "", none, some ("failed to scan image: " ++ ("failed to analyze OS: " ++ e))⟩,
              tr ++ [Call.GetOS]) := by
  have hscan : ospkg.Scan env files
      = (⟨"", "", [], some ("failed to analyze OS: " ++ e)⟩, [Call.GetOS]) := by
    unfold ospkg.Scan
    simp only [hos]
  refine ⟨hscan, ?_⟩
  intro imageName filePath scanOptions target tr hex hreq
  rw [ScanImage_of_extract env imageName filePath scanOptions target files tr hex,
    scanFiles_of_Scan_error env target files scanOptions "" "" [] _ [Call.GetOS] hreq hscan]

/-- Witness of `Scan_os_absent_is_error`: OS identification answers
`Unknown OS`. -/
theorem Scan_os_absent_is_error_witness :
    ospkg.Scan (sampleEnv (Except.error "Unknown OS") []) []
      = (⟨"", "", [], some ("failed to analyze OS: " ++ "Unknown OS")⟩, [Call.GetOS]) :=
  (Scan_os_absent_is_error (sampleEnv (Except.error "Unknown OS") []) [] "Unknown OS" rfl).1

/-- Claim C3 as stated fails when OS identification finds no OS: `ScanImage`
with `VulnType = ["os"]` returns an error and the `nil` map, not an empty
result map without error. -/
theorem ScanImage_os_absent_returns_error :
    ScanImage (sampleEnv (Except.error "Unknown OS") []) "img" "" ⟨["os"]⟩
      = (Outcome.returned
          ⟨"", "", none, some "failed to scan image: failed to analyze OS: Unknown OS"⟩,
          [Call.GetDockerOption, Call.Analyze "img", Call.GetOS]) := by
  decide

end scanner

/-! ## Image scan: target selection and aggregation -/

namespace scanner

/-- Whenever a target was named, `extract` calls at least one collaborator. -/
theorem extract_trace_ne_nil (env : Env) (imageName filePath : String)
    (h : imageName ≠ "" ∨ filePath ≠ "") : (extract env imageName filePath).2 ≠ [] := by
  unfold extract
  by_cases hi : imageName = ""
  · have hf : filePath ≠ "" := by
      rcases h with h | h
      · exact absurd hi h
      · exact h
    simp only [hi, ne_eq, not_true_eq_false, if_false, hf, not_false_eq_true, if_true]
    unfold openStream
    by_cases hd : filePath = "-"
    · by_cases ht : env.IsTerminal = true
      · simp [hd, ht]
      · simp only [hd, if_true, ht, Bool.false_eq_true, if_false]
        cases env.AnalyzeFromFile env.Stdin <;> simp
    · simp only [hd, if_false]
      cases env.Open filePath with
      | error err => simp
      | ok rc =>
        dsimp only
        cases hx : env.AnalyzeFromFile rc <;> simp
  · simp only [ne_eq, hi, not_false_eq_true, if_true]
    cases env.GetDockerOption with
    | error err => simp
    | ok o =>
      dsimp only
      cases hx : env.Analyze imageName o <;> simp

theorem ScanImage_trace_ne_nil (env : Env) (imageName filePath : String)
    (scanOptions : types.ScanOptions) (h : imageName ≠ "" ∨ filePath ≠ "") :
    (ScanImage env imageName filePath scanOptions).2 ≠ [] := by
  have hne := extract_trace_ne_nil env imageName filePath h
  unfold ScanImage
  rcases hx : extract env imageName filePath with ⟨o, tr⟩
  rw [hx] at hne
  have htr : tr ≠ [] := hne
  cases o with
  | exited code => exact htr
  | returned r =>
    cases r with
    | error ret => exact htr
    | ok p =>
      obtain ⟨target, files⟩ := p
      simp only
      intro hnil
      exact htr (List.append_eq_nil.mp hnil).1

/-- With an image name, the file path is not looked at. -/
theorem extract_image_ignores_path (env : Env) (imageName filePath : String)
    (h : imageName ≠ "") :
    extract env imageName filePath = extract env imageName "" := by
  unfold extract
  simp only [ne_eq, h, not_false_eq_true, if_true]

/-- The trace of `ScanImage` begins with the trace of the extraction part. -/
theorem ScanImage_trace_extends_extract (env : Env) (imageName filePath : String)
    (scanOptions : types.ScanOptions) :
    ∃ more, (ScanImage env imageName filePath scanOptions).2
      = (extract env imageName filePath).2 ++ more := by
  unfold ScanImage
  rcases hx : extract env imageName filePath with ⟨o, tr⟩
  cases o with
  | exited code => exact ⟨[], by simp⟩
  | returned r =>
    cases r with
    | error ret => exact ⟨[], by simp⟩
    | ok p =>
      obtain ⟨target, files⟩ := p
      exact ⟨(scanFiles env target files scanOptions).2, rfl⟩

/-- With an image name, the first collaborator called is `types.GetDockerOption`. -/
theorem extract_image_first_call (env : Env) (imageName filePath : String)
    (h : imageName ≠ "") :
    ∃ rest, (extract env imageName filePath).2 = Call.GetDockerOption :: rest := by
  unfold extract
  simp only [ne_eq, h, not_false_eq_true, if_true]
  cases env.GetDockerOption with
  | error err => exact ⟨[], rfl⟩
  | ok o =>
    dsimp only
    cases hx : env.Analyze imageName o <;> exact ⟨[Call.Analyze imageName], rfl⟩

/-- Without an image name and with the path `-`, a terminal on standard input
ends the process in `openStream`. -/
theorem extract_stdin_terminal (env : Env) (ht : env.IsTerminal = true) :
    extract env "" "-"
      = (Outcome.exited 64, [Call.IsTerminal, Call.Usage, Call.Exit 64]) := by
  simp [extract, openStream, ht]

/-- Without an image name and with the path `-`, piped standard input is
handed to `analyzer.AnalyzeFromFile`. -/
theorem extract_stdin_piped (env : Env) (ht : env.IsTerminal = false) :
    (extract env "" "-").2 = [Call.IsTerminal, Call.AnalyzeFromFile] := by
  simp only [extract, openStream, ht]
  cases hx : env.AnalyzeFromFile env.Stdin <;> simp [hx]

/-- Without an image name and with a path other than `-`, the first
collaborator called is `os.Open` on that path. -/
theorem extract_file_first_call (env : Env) (filePath : String)
    (hf : filePath ≠ "") (hd : filePath ≠ "-") :
    ∃ rest, (extract env "" filePath).2 = Call.Open filePath :: rest := by
  unfold extract openStream
  simp only [ne_eq, not_true_eq_false, if_false, hf, not_false_eq_true, if_true, hd]
  cases hx : env.Open filePath with
  | error err => exact ⟨[], rfl⟩
  | ok rc =>
    dsimp only
    cases hy : env.AnalyzeFromFile rc <;> exact ⟨[Call.AnalyzeFromFile], rfl⟩

/-- Claim C6, amended. `ScanImage` returns the usage error
`image name or image file must be specified`, before any extraction or
scanning takes place, when both the image name and the file path are empty,
and in no other case does it end without calling a collaborator. When the
image name is non-empty the file path is ignored: a call with both non-empty
is the call with the image name alone, and it begins with
`types.GetDockerOption`. When only the file path is non-empty the call begins
with `openStream`: for the path `-` with a terminal on standard input it
prints the usage and terminates the process with status 64, extracting
nothing; for the path `-` with piped standard input it goes on to
`analyzer.AnalyzeFromFile`; for any other path its first call is `os.Open` on
that path. -/
theorem ScanImage_usage_error (env : Env) (imageName filePath : String)
    (scanOptions : types.ScanOptions) :
    ScanImage env "" "" scanOptions
        = (Outcome.returned ⟨"", "", none, some "image name or image file must be specified"⟩, [])
    ∧ (imageName ≠ "" ∨ filePath ≠ "" →
        (ScanImage env imageName filePath scanOptions).2 ≠ [])
    ∧ (imageName ≠ "" →
        ScanImage env imageName filePath scanOptions
          = ScanImage env imageName "" scanOptions)
    ∧ (imageName ≠ "" →
        ∃ rest, (ScanImage env imageName filePath scanOptions).2
          = Call.GetDockerOption :: rest)
    ∧ (env.IsTerminal = true →
        ScanImage env "" "-" scanOptions
          = (Outcome.exited 64, [Call.IsTerminal, Call.Usage, Call.Exit 64]))
    ∧ (env.IsTerminal = false →
        ∃ rest, (ScanImage env "" "-" scanOptions).2
          = Call.IsTerminal :: Call.AnalyzeFromFile :: rest)
    ∧ (filePath ≠ "" → filePath ≠ "-" →
        ∃ rest, (ScanImage env "" filePath scanOptions).2 = Call.Open filePath :: rest) := by
  refine ⟨?_, ScanImage_trace_ne_nil env imageName filePath scanOptions, ?_, ?_, ?_, ?_, ?_⟩
  · simp [ScanImage, extract]
  · intro h
    unfold ScanImage
    rw [extract_image_ignores_path env imageName filePath h]
  · intro h
    obtain ⟨more, hm⟩ := ScanImage_trace_extends_extract env imageName filePath scanOptions
    obtain ⟨rest, hr⟩ := extract_image_first_call env imageName filePath h
    exact ⟨rest ++ more, by rw [hm, hr]; rfl⟩
  · intro ht
    unfold ScanImage
    rw [extract_stdin_terminal env ht]
  · intro ht
    obtain ⟨more, hm⟩ := ScanImage_trace_extends_extract env "" "-" scanOptions
    exact ⟨more, by rw [hm, extract_stdin_piped env ht]; rfl⟩
  · intro hf hd
    obtain ⟨more, hm⟩ := ScanImage_trace_extends_extract env "" filePath scanOptions
    obtain ⟨rest, hr⟩ := extract_file_first_call env filePath hf hd
    exact ⟨rest ++ more, by rw [hm, hr]; rfl⟩

/-- Witness of `ScanImage_usage_error`: with the image name `img` and the file
path `image.tar` the call is the call with the image name alone and begins with
`types.GetDockerOption`; with the path `image.tar` alone it begins with
`os.Open`; with the path `-` alone and piped standard input it goes on to
`analyzer.AnalyzeFromFile`. -/
theorem ScanImage_usage_error_witness :
    ScanImage (sampleEnv (Except.ok ⟨"3.10", "alpine"⟩) []) "img" "image.tar" ⟨["os"]⟩
      = ScanImage (sampleEnv (Except.ok ⟨"3.10", "alpine"⟩) []) "img" "" ⟨["os"]⟩
    ∧ (∃ rest, (ScanImage (sampleEnv (Except.ok ⟨"3.10", "alpine"⟩) [])
          "img" "image.tar" ⟨["os"]⟩).2 = Call.GetDockerOption :: rest)
    ∧ (∃ rest, (ScanImage (sampleEnv (Except.ok ⟨"3.10", "alpine"⟩) [])
          "" "-" ⟨["os"]⟩).2 = Call.IsTerminal :: Call.AnalyzeFromFile :: rest)
    ∧ (∃ rest, (ScanImage (sampleEnv (Except.ok ⟨"3.10", "alpine"⟩) [])
          "" "image.tar" ⟨["os"]⟩).2 = Call.Open "image.tar" :: rest) :=
  ⟨(ScanImage_usage_error (sampleEnv (Except.ok ⟨"3.10", "alpine"⟩) [])
      "img" "image.tar" ⟨["os"]⟩).2.2.1 (by decide),
   (ScanImage_usage_error (sampleEnv (Except.ok ⟨"3.10", "alpine"⟩) [])
      "img" "image.tar" ⟨["os"]⟩).2.2.2.1 (by decide),
   (ScanImage_usage_error (sampleEnv (Except.ok ⟨"3.10", "alpine"⟩) [])
      "img" "image.tar" ⟨["os"]⟩).2.2.2.2.2.1 rfl,
   (ScanImage_usage_error (sampleEnv (Except.ok ⟨"3.10", "alpine"⟩) [])
      "img" "image.tar" ⟨["os"]⟩).2.2.2.2.2.2 (by decide) (by decide)⟩

/-- Claim C6 as stated fails when both the image name and the file path are
given: `ScanImage` scans the image and returns without error. -/
theorem ScanImage_both_given_succeeds :
    ScanImage (sampleEnv (Except.ok ⟨"3.10", "alpine"⟩) []) "img" "image.tar" ⟨["os"]⟩
      = (Outcome.returned
          ⟨"alpine", "3.10",
            some [("img (alpine 3.10)", [sampleVuln "CVE-2019-14697"])], none⟩,
          [Call.GetDockerOption, Call.Analyze "img", Call.GetOS, Call.GetPackages,
            Call.Detect Detector.alpine]) := by
  decide

/-- Claim C5, amended. In a successful run with both `os` and `library`
requested, where the OS scan yields a non-empty family, a version and findings
`O`, and the library scan yields a map `L` of `n` distinct manifest paths none
of which equals the name of the OS target, the result has exactly `n + 1`
entries with pairwise distinct names, the entry of the OS target holds exactly
`O`, and the entry of every manifest path holds exactly its findings in `L`. -/
theorem ScanImage_keeps_targets_apart (env : Env) (imageName filePath : String)
    (scanOptions : types.ScanOptions) (target : String) (files : extractor.FileMap)
    (tr trOS : List Call) (f v : String) (O : List DetectedVulnerability)
    (L : GoMap (List DetectedVulnerability))
    (hex : extract env imageName filePath
      = (Outcome.returned (Except.ok (target, files)), tr))
    (hos : utils.StringInSlice "os" scanOptions.VulnType = true)
    (hlib : utils.StringInSlice "library" scanOptions.VulnType = true)
    (hscan : ospkg.Scan env files = (⟨f, v, O, none⟩, trOS))
    (hf : f ≠ "")
    (hL : env.LibraryScan files scanOptions = Except.ok L)
    (hnd : L.keys.Nodup)
    (hfree : imageDetail target f v ∉ L.keys) :
    ∃ results : GoMap (List DetectedVulnerability),
      (ScanImage env imageName filePath scanOptions).1
        = Outcome.returned ⟨f, v, some results, none⟩
      ∧ results.length = L.length + 1
      ∧ results.keys.Nodup
      ∧ results.get? (imageDetail target f v) = some O
      ∧ ∀ p vs, (p, vs) ∈ L → results.get? p = some vs := by
  have hfiles : scanFiles env target files scanOptions
      = (⟨f, v, some (GoMap.setAll (GoMap.set [] (imageDetail target f v) O) L), none⟩,
          trOS ++ [Call.LibraryScan]) := by
    unfold scanFiles scanOS
    simp only [hos, if_true, hscan, ne_eq, hf, not_false_eq_true, hlib, hL]
  refine ⟨GoMap.setAll (GoMap.set [] (imageDetail target f v) O) L, ?_, ?_, ?_, ?_, ?_⟩
  · rw [ScanImage_of_extract env imageName filePath scanOptions target files tr hex, hfiles]
  · rw [GoMap.length_setAll L _ hnd]
    · simp [GoMap.set]
      omega
    · intro k hk hmem
      rcases (GoMap.mem_keys_set [] (imageDetail target f v) k O).mp hmem with h | h
      · rw [h] at hk
        exact hfree hk
      · simp [GoMap.keys] at h
  · apply GoMap.nodup_keys_setAll
    exact GoMap.nodup_keys_set [] _ O (by simp [GoMap.keys])
  · rw [GoMap.get?_setAll_not_mem L _ _ hfree]
    exact GoMap.get?_set_self [] _ O
  · intro p vs hm
    exact GoMap.get?_setAll_mem L _ hnd p vs hm

/-- Witness of `ScanImage_keeps_targets_apart`: an Alpine image with one
manifest carrying two findings. -/
theorem ScanImage_keeps_targets_apart_witness :
    ∃ results : GoMap (List DetectedVulnerability),
      (ScanImage (sampleEnv (Except.ok ⟨"3.10", "alpine"⟩)
          [("app/Gemfile.lock", [sampleVuln "CVE-2019-5477", sampleVuln "CVE-2019-16892"])])
          "img" "" ⟨["os", "library"]⟩).1
        = Outcome.returned ⟨"alpine", "3.10", some results, none⟩
      ∧ results.length = 1 + 1
      ∧ results.keys.Nodup
      ∧ results.get? (imageDetail "img" "alpine" "3.10") = some [sampleVuln "CVE-2019-14697"]
      ∧ ∀ p vs, (p, vs) ∈ [("app/Gemfile.lock",
            [sampleVuln "CVE-2019-5477", sampleVuln "CVE-2019-16892"])] →
          results.get? p = some vs :=
  ScanImage_keeps_targets_apart
    (sampleEnv (Except.ok ⟨"3.10", "alpine"⟩)
      [("app/Gemfile.lock", [sampleVuln "CVE-2019-5477", sampleVuln "CVE-2019-16892"])])
    "img" "" ⟨["os", "library"]⟩ "img" [] [Call.GetDockerOption, Call.Analyze "img"]
    [Call.GetOS, Call.GetPackages, Call.Detect Detector.alpine]
    "alpine" "3.10" [sampleVuln "CVE-2019-14697"]
    [("app/Gemfile.lock", [sampleVuln "CVE-2019-5477", sampleVuln "CVE-2019-16892"])]
    rfl rfl rfl rfl (by decide) rfl (by decide) (by decide)

/-- Claim C5 as stated fails when a manifest path equals the name of the OS
target: one manifest path, so two entries are promised, yet the result has a
single entry, and it holds the library findings in place of the OS findings. -/
theorem ScanImage_colliding_names_merge :
    (ScanImage (sampleEnv (Except.ok ⟨"3.10", "alpine"⟩)
        [("img (alpine 3.10)", [sampleVuln "CVE-2019-5477"])])
        "img" "" ⟨["os", "library"]⟩).1
      = Outcome.returned ⟨"alpine", "3.10",
          some [("img (alpine 3.10)", [sampleVuln "CVE-2019-5477"])], none⟩
    ∧ (ospkg.Scan (sampleEnv (Except.ok ⟨"3.10", "alpine"⟩)
        [("img (alpine 3.10)", [sampleVuln "CVE-2019-5477"])]) []).1
      = ⟨"alpine", "3.10", [sampleVuln "CVE-2019-14697"], none⟩ := by
  decide

end scanner

/-! ## The tabular writer: what reaches the table and the header -/

namespace report

/-- Every pass of the loop appends one row whose last column is the title
column of the finding and whose severity column is coloured on the process
standard output only. -/
theorem step_appends_row (env : Env) (tw : TableWriter) (st : CountMap × Table)
    (v : DetectedVulnerability) :
    (TableWriter.step env tw st v).2.rows
      = st.2.rows ++ [[v.PkgName, v.VulnerabilityID,
          if tw.Output = IoWriter.osStdout then env.ColorizeSeverity v.Severity else v.Severity,
          v.InstalledVersion, v.FixedVersion, titleColumn v]] := by
  unfold TableWriter.step Table.Append
  by_cases ho : tw.Output = IoWriter.osStdout <;> simp [ho]

/-- The header text is the target name, the underline and the total line with
the count of every canonical name. -/
theorem headerText_eq (env : Env) (tw : TableWriter) (result : Result) :
    TableWriter.headerText env tw result
      = ("\n" ++ result.FileName ++ "\n") ++ (underline result ++ "\n")
        ++ ("Total: " ++ fmtInt result.Vulnerabilities.length ++ " ("
          ++ strings.Join (vulnerability.SeverityNames.map
              (fun severity => severity ++ ": "
                ++ fmtInt (countSeverity severity result.Vulnerabilities))) ", "
          ++ ")\n\n") := by
  unfold TableWriter.headerText
  simp only [loop_count]

/-- Whatever the sink, `write` appends the header text to the process standard
output first. -/
theorem write_stdout_prefix (env : Env) (tw : TableWriter) (result : Result) (w : World) :
    ∃ more, (TableWriter.write env tw result w).stdout
      = w.stdout ++ TableWriter.headerText env tw result ++ more := by
  unfold TableWriter.write
  by_cases h0 : result.Vulnerabilities.length = 0
  · exact ⟨"", by simp [h0, World.emit]⟩
  · simp only [h0, if_false]
    have hout := foldl_step_out env tw result.Vulnerabilities
      (fun _ => 0, { Table.NewWriter tw.Output with header := tableHeader })
    cases ho : tw.Output with
    | osStdout =>
      refine ⟨env.renderTable { (TableWriter.loop env tw result).2 with
        autoMergeCells := true, rowLine := true }, ?_⟩
      have : (TableWriter.loop env tw result).2.out = IoWriter.osStdout := by
        unfold TableWriter.loop
        rw [hout]
        simp [Table.NewWriter, ho]
      simp [World.emit, this]
    | other =>
      refine ⟨"", ?_⟩
      have : (TableWriter.loop env tw result).2.out = IoWriter.other := by
        unfold TableWriter.loop
        rw [hout]
        simp [Table.NewWriter, ho]
      simp [World.emit, this]

end report

end Trivy
